import Mathlib

/-!
Verification development for the ISTOIC connection-resilience and
multi-provider-race subsystem.

The definitions below are a shallow embedding of:
* `OmniRaceKernel` (`raceStream` / `executeProviderStream`) — namespace `OmniRace`;
* the `useGlobalPeer` connection supervisor (`scheduleReconnect`, the
  `peer.on('open')` and `peer.on('error')` handlers) — namespace `PeerSup`;
* `HanisahKernel` (`buildContext`, `streamExecute`) — namespace `Hanisah`;
* `HydraVault` (`getKey`, `reportFailure`) — namespace `Hydra`.

Machine integers do not overflow in any of the embedded code paths (all
counters and timestamps are small), so numbers are modelled as `Nat`
(timestamps, counters, token counts) and `ℚ` (the backoff delay, which the
source computes with `Math.pow(1.5, n)`; `1.5^n = 3^n/2^n` is exact in IEEE
doubles for every exponent the `min` cap leaves relevant, so `ℚ` is faithful).
-/

/-- Embedding of JavaScript `haystack.includes(needle)`: some index of
`hay` starts an occurrence of `needle`. Executable, used by the error
classifiers in `useGlobalPeer.ts` and `hydraVault`. -/
def strIncludes (needle hay : String) : Bool :=
  (List.range (hay.data.length + 1)).any (fun i => needle.data.isPrefixOf (hay.data.drop i))

namespace OmniRace

/-- One candidate of `OmniRaceKernel.raceStream` (one entry of `RACE_CONFIG`),
described by how its `executeProviderStream` call would behave:

* `hasKey` — whether `GLOBAL_VAULT.getKey(provider)` returns a credential
  (`part_002` line 127; without one the wrapper throws `NO_KEY` immediately);
* `setupTime` — the instant at which the awaited stream-creation call
  (`ai.models.generateContentStream(...)` line 136 or
  `client.chat.completions.create(..., {stream:true})` line 174) settles.
  Those SDK promises settle when the HTTP response stream is established,
  before any content chunk has been produced; `executeProviderStream`
  returns its generator at that moment without consuming a chunk;
* `setupOk` — whether that settlement is a resolution (stream established)
  or a rejection (fetch/stream error);
* `chunks` — the `(time, text)` schedule of content chunks the established
  stream would deliver, in increasing time order (the wrapper generators
  yield `{text}` only, and skip falsy/empty text, lines 146-156, 187-197);
* `usesSignal` — whether the stream-creation call has the race's
  `AbortSignal` attached.  True for the OpenAI-compatible path (line 181
  passes `{signal}`), false for the Gemini path (the source comments at
  lines 134-135 note the SDK exposes no abort signal on setup). -/
structure RaceCandidate where
  hasKey : Bool
  setupTime : Nat
  setupOk : Bool
  chunks : List (Nat × String)
  usesSignal : Bool
deriving DecidableEq, Inhabited

/-- `TIMEOUT_MS = 45_000`, the race's fixed hard limit (`part_002` line 20). -/
def TIMEOUT_MS : Nat := 45000

/-- Earliest `(time, index)` pair of a list, ties broken towards the earlier
list position (promises that settle first resolve the shared commitment
first; `winnerDeclared` makes later resolutions no-ops, lines 58-68). -/
def earliest (l : List (Nat × Nat)) : Option (Nat × Nat) :=
  l.foldl
    (fun acc p =>
      match acc with
      | none => some p
      | some q => if p.1 < q.1 then some p else some q)
    none

/-- The `(settle time, index)` pairs of the candidates whose
`executeProviderStream` promise resolves (credential present and stream
setup succeeds). -/
def successList (cs : List RaceCandidate) : List (Nat × Nat) :=
  cs.enum.filterMap
    (fun p => if p.2.hasKey && p.2.setupOk then some (p.2.setupTime, p.1) else none)

/-- When a candidate's `executeProviderStream` promise rejects on its own:
immediately (`NO_KEY`, line 128) without a credential, otherwise at the
settle time of the failed stream-creation call. -/
def failTime (c : RaceCandidate) : Nat :=
  if c.hasKey then c.setupTime else 0

/-- Time at which the last candidate's own rejection arrives, i.e. when
`failureCount` reaches `racerCount` (lines 70-80) if no candidate resolves. -/
def lastFailTime (cs : List RaceCandidate) : Nat :=
  cs.foldl (fun a c => max a (failTime c)) 0

/-- How the `racePromise` of `raceStream` settles: resolution with the
winning candidate's iterator, or rejection with `ALL_ENGINES_FAILED`
(line 78) or `OMNI_RACE_TIMEOUT` (line 86). -/
inductive RaceInternal where
  | winner (i : Nat)
  | allEnginesFailed
  | timedOut
deriving DecidableEq

/-- Settlement of the `racePromise` (lines 50-90): the first candidate whose
`executeProviderStream` resolves before the 45 s timer is the winner; if
every candidate rejects (and none resolves) before the timer,
`ALL_ENGINES_FAILED`; otherwise the timer fires `OMNI_RACE_TIMEOUT`.
Settlements at exactly `TIMEOUT_MS` are attributed to the timer. -/
def raceInternal (cs : List RaceCandidate) : RaceInternal :=
  match earliest (successList cs) with
  | some (t, i) => if t < TIMEOUT_MS then .winner i else .timedOut
  | none =>
      if cs.isEmpty then .timedOut
      else if lastFailTime cs < TIMEOUT_MS then .allEnginesFailed else .timedOut

/-- The message of the internal rejection, if the race promise rejects. -/
def internalErrMsg : RaceInternal → Option String
  | .winner _ => none
  | .allEnginesFailed => some "ALL_ENGINES_FAILED"
  | .timedOut => some "OMNI_RACE_TIMEOUT"

/-- The single content chunk `raceStream` yields in its `catch` branch
(line 104) — the same literal for both terminal failure outcomes. -/
def failText : String :=
  "\n\n> ⚠️ **Omni-Race Failed**: All cognitive nodes rejected the request or timed out."

/-- The texts the winner's wrapper generator yields: every scheduled chunk
with non-empty text (`if (text) yield { text }`). -/
def winnerTexts (c : RaceCandidate) : List String :=
  (c.chunks.map Prod.snd).filter (fun s => s ≠ "")

/-- Caller-observable output of `raceStream` (lines 92-108): the winner's
streamed texts, or the single `failText` chunk on either terminal failure. -/
def raceOutput (cs : List RaceCandidate) : List String :=
  match raceInternal cs with
  | .winner i => winnerTexts (cs.getD i default)
  | _ => [failText]

/-- When the winner's stream is fully consumed (the `for await` of lines
96-98 ends): the time of its last chunk (its setup time if it has none). -/
def streamEndTime (c : RaceCandidate) : Nat :=
  c.chunks.foldl (fun a p => max a p.1) c.setupTime

/-- When `controller.abort()` fires: in the `finally` (line 107) after the
winner's stream is consumed or after the failure chunk is yielded, or
together with the timeout rejection (line 87). -/
def abortTime (cs : List RaceCandidate) : Nat :=
  match raceInternal cs with
  | .winner i => streamEndTime (cs.getD i default)
  | .allEnginesFailed => lastFailTime cs
  | .timedOut => TIMEOUT_MS

/-- Candidate `j`'s stream-creation promise is made to reject by the race's
own cancellation signal: it has a credential, the signal is attached to the
setup call, and the abort fires while setup is still pending. -/
def abortInduced (cs : List RaceCandidate) (j : Nat) : Bool :=
  (cs.getD j default).hasKey && (cs.getD j default).usesSignal &&
    decide (abortTime cs < (cs.getD j default).setupTime)

/-- Whether `GLOBAL_VAULT.reportFailure` is invoked for candidate `j`'s
credential.  Tracing `executeProviderStream`: no credential means `NO_KEY`
is thrown before any vault interaction; the `.catch` attached to the
stream-creation call (lines 140-143 and 181-184) reports unconditionally,
both when setup fails on its own and when the race's abort signal rejects a
pending setup; a candidate whose setup resolved only reports from inside
its generator, which is never iterated unless it is the winner (mid-stream
errors of the winner are outside the scope of the claims and not modelled). -/
def reportsFailure (cs : List RaceCandidate) (j : Nat) : Bool :=
  if !(cs.getD j default).hasKey then false
  else if (cs.getD j default).usesSignal &&
      decide (abortTime cs < (cs.getD j default).setupTime) then true
  else !(cs.getD j default).setupOk

/-- The instant candidate `j` would produce its first (non-empty) output
chunk — the tie-break the spec and the source's own doc comments
(lines 14-17 and 111-114 of `part_002`) prescribe for the race. -/
def firstChunkTime (c : RaceCandidate) : Option Nat :=
  if c.hasKey && c.setupOk then
    ((c.chunks.filter (fun p => p.2 ≠ "")).head?).map Prod.fst
  else none

/-- The candidate that would be the winner under first-output-chunk
semantics. -/
def firstChunkRacer (cs : List RaceCandidate) : Option Nat :=
  (earliest (cs.enum.filterMap (fun p => (firstChunkTime p.2).map (fun t => (t, p.1))))).map
    Prod.snd

/-- Failing input for C1: candidate 0 establishes its stream at t=10 ms but
produces its first chunk only at t=1000 ms; candidate 1 establishes at
t=20 ms and streams at t=30 ms. -/
def raceA : RaceCandidate := ⟨true, 10, true, [(1000, "a")], true⟩

/-- Failing input for C1, second candidate. -/
def raceB : RaceCandidate := ⟨true, 20, true, [(30, "b")], true⟩

/-- C1: the race commits to the candidate whose stream-creation promise
settles first (first connection/stream established), not to the candidate
that first produces an output chunk.  At the failing input, candidate 0
(connects at 10 ms, first chunk at 1000 ms) wins and its chunks are
forwarded, although candidate 1 (connects at 20 ms, first chunk at 30 ms)
is the first to produce output — contradicting the claim and the source's
own doc comments ("The first provider to emit a text chunk WINS",
"Resolves immediately when the FIRST CHUNK is received (TTFT)"). -/
theorem omni_winner_by_connection_not_first_chunk :
    raceInternal [raceA, raceB] = .winner 0 ∧
    firstChunkRacer [raceA, raceB] = some 1 ∧
    raceOutput [raceA, raceB] = ["a"] ∧
    (0 : Nat) ≠ 1 := by
  decide

/-- C2 counterexample input: the winner resolves at t=10 and finishes
streaming at t=20. -/
def fastWinner : RaceCandidate := ⟨true, 10, true, [(20, "x")], true⟩

/-- C2 counterexample input: a loser whose stream setup is still pending
when the race's cleanup abort fires at t=20. -/
def slowLoser : RaceCandidate := ⟨true, 1000000, true, [(1000010, "y")], true⟩

/-- C2 counterexample: after candidate 0 wins, candidate 1 is aborted by the
race's own cancellation signal while its stream setup is pending — and
`reportFailure` IS invoked for its credential (the `.catch` on the
stream-creation call reports unconditionally), contrary to the claim that
cancellation-induced failures never reach the key pool. -/
theorem omni_aborted_loser_is_reported :
    raceInternal [fastWinner, slowLoser] = .winner 0 ∧
    abortInduced [fastWinner, slowLoser] 1 = true ∧
    reportsFailure [fastWinner, slowLoser] 1 = true := by
  decide

/-- C2 (amended): once a winner is committed, a losing candidate whose
stream was already established is never reported to the key pool (its
generator is simply dropped), but a losing candidate still in stream setup
with the abort signal attached when the race's cancellation fires has
`reportFailure` invoked for its credential with the cancellation-induced
abort error. -/
theorem omni_loser_reporting (cs : List RaceCandidate) (i j : Nat)
    (hw : raceInternal cs = .winner i) (hij : j ≠ i) :
    ((cs.getD j default).setupOk = true → abortInduced cs j = false →
        reportsFailure cs j = false) ∧
    (abortInduced cs j = true → reportsFailure cs j = true) := by
  obtain ⟨c, hc⟩ : ∃ c, cs.getD j default = c := ⟨_, rfl⟩
  unfold reportsFailure abortInduced
  rw [hc]
  constructor
  · intro hok hni
    cases hk : c.hasKey with
    | false => simp [hk]
    | true =>
        cases hs : c.usesSignal with
        | false => simp [hk, hs, hok]
        | true =>
            simp only [hk, hs, Bool.true_and] at hni
            simp [hk, hs, hni, hok]
  · intro h
    cases hk : c.hasKey with
    | false => simp [hk] at h
    | true =>
        cases hs : c.usesSignal with
        | false => simp [hk, hs] at h
        | true =>
            simp only [hk, hs, Bool.true_and] at h
            simp [hk, hs, h]

/-- Witness roster for C2 (amended): `wrA` wins (resolves at 5, stream ends
at 7). -/
def wrA : RaceCandidate := ⟨true, 5, true, [(7, "m")], true⟩

/-- Witness roster for C2 (amended): `wrB` loses but had established its
stream at t=6, before the abort at t=7. -/
def wrB : RaceCandidate := ⟨true, 6, true, [(100, "n")], true⟩

/-- Witness roster for C2 (amended): `wrC` is still in setup at the abort. -/
def wrC : RaceCandidate := ⟨true, 50, true, [], true⟩

/-- Witness for C2 (amended) at a concrete roster: the established loser is
not reported, the mid-setup loser is. -/
theorem omni_loser_reporting_witness :
    reportsFailure [wrA, wrB, wrC] 1 = false ∧
    reportsFailure [wrA, wrB, wrC] 2 = true := by
  have h1 := omni_loser_reporting [wrA, wrB, wrC] 0 1 (by decide) (by decide)
  have h2 := omni_loser_reporting [wrA, wrB, wrC] 0 2 (by decide) (by decide)
  exact ⟨h1.1 (by decide) (by decide), h2.2 (by decide)⟩

/-- C3 counterexample input: a candidate that rejects at t=5. -/
def deadA : RaceCandidate := ⟨true, 5, false, [], true⟩

/-- C3 counterexample input: a candidate with no credential (rejects at 0). -/
def deadB : RaceCandidate := ⟨false, 0, false, [], true⟩

/-- C3 counterexample input: a candidate that hangs past the 45 s timeout. -/
def hangA : RaceCandidate := ⟨true, 999999, true, [(1000000, "z")], true⟩

/-- C3 counterexample: the all-failed roster and the all-hanging roster end
in the two different internal rejections, yet the caller observes exactly
the same output (the one fixed `failText` chunk) in both cases — so the two
terminal outcomes are NOT distinct as observed by the caller. -/
theorem omni_terminal_outcomes_same_for_caller :
    raceInternal [deadA, deadB] = .allEnginesFailed ∧
    raceInternal [hangA] = .timedOut ∧
    raceOutput [deadA, deadB] = raceOutput [hangA] := by
  decide

/-- C3 (amended): the race does have two distinguished terminal failure
outcomes, but only internally — the `racePromise` rejects with distinct
errors (`ALL_ENGINES_FAILED` vs `OMNI_RACE_TIMEOUT`) — while the caller of
`raceStream` observes the identical terminal content chunk in both cases. -/
theorem omni_terminal_internal_distinct (cs cs' : List RaceCandidate)
    (h : raceInternal cs = .allEnginesFailed) (h' : raceInternal cs' = .timedOut) :
    internalErrMsg (raceInternal cs) = some "ALL_ENGINES_FAILED" ∧
    internalErrMsg (raceInternal cs') = some "OMNI_RACE_TIMEOUT" ∧
    internalErrMsg (raceInternal cs) ≠ internalErrMsg (raceInternal cs') ∧
    raceOutput cs = [failText] ∧
    raceOutput cs' = [failText] := by
  refine ⟨by rw [h]; rfl, by rw [h']; rfl, by rw [h, h']; decide, ?_, ?_⟩
  · unfold raceOutput
    rw [h]
  · unfold raceOutput
    rw [h']

/-- Witness for C3 (amended), at the concrete all-failed and all-hanging
rosters. -/
theorem omni_terminal_internal_distinct_witness :
    internalErrMsg (raceInternal [deadA, deadB]) = some "ALL_ENGINES_FAILED" ∧
    internalErrMsg (raceInternal [hangA]) = some "OMNI_RACE_TIMEOUT" ∧
    internalErrMsg (raceInternal [deadA, deadB]) ≠ internalErrMsg (raceInternal [hangA]) ∧
    raceOutput [deadA, deadB] = [failText] ∧
    raceOutput [hangA] = [failText] :=
  omni_terminal_internal_distinct [deadA, deadB] [hangA] (by decide) (by decide)

end OmniRace

namespace PeerSup

/-- Connection states of `useGlobalPeer` (`useGlobalPeer.ts` line 9). -/
inductive PeerStatus where
  | INIT
  | CONNECTING
  | READY
  | DISCONNECTED
  | ERROR
  | RATE_LIMITED
deriving DecidableEq

/-- The delay `scheduleReconnect` computes (`useGlobalPeer.ts` lines 47-51):
`min(2000 * 1.5^retryCount, 30000)`, overridden to a flat `60000` when
`statusRef.current` reads `RATE_LIMITED`.  `s` is the value that ref holds
at call time — which, because the ref is synced from the `status` state by
a deferred `useEffect` (line 24), is the status committed *before* the
handler that calls `scheduleReconnect`, not one set within it. -/
def computedDelay (r : Nat) (s : PeerStatus) : ℚ :=
  if s = .RATE_LIMITED then 60000 else min (2000 * (3 / 2 : ℚ) ^ r) 30000

/-- `scheduleReconnect(isFatalError)` (`useGlobalPeer.ts` lines 39-59):
with a fatal error and `retryCount > 5` it stops (sets `ERROR`, schedules
nothing); otherwise it schedules one retry timer with `computedDelay`.
Returns the scheduled delay, if any.  (On firing, the timer increments
`retryCount` and re-runs `initGlobalPeer` — see `stepRetry` below.) -/
def scheduleReconnect (isFatal : Bool) (r : Nat) (s : PeerStatus) : Option ℚ :=
  if isFatal && decide (r > 5) then none else some (computedDelay r s)

/-- Auxiliary: the delay function of `scheduleReconnect` in isolation.
The non-rate-limited delay equals `min(30000, 2000 * 1.5^RetryBudget)`, is
non-decreasing in the budget and never exceeds the 30 s maximum; and when
the status it *reads* is `RATE_LIMITED`, any delay it schedules is the
60 s floor.  (Which status a given error handling makes it read is the
subject of the C4 theorems below.) -/
theorem backoff_delay_spec (r r' : Nat) (s : PeerStatus) :
    (s ≠ .RATE_LIMITED → computedDelay r s = min (30000 : ℚ) (2000 * (3 / 2 : ℚ) ^ r)) ∧
    (r ≤ r' → computedDelay r s ≤ computedDelay r' s) ∧
    (computedDelay r s ≤ 30000 ∨ s = .RATE_LIMITED) ∧
    (s = .RATE_LIMITED →
      ∀ (b : Bool) (d : ℚ), scheduleReconnect b r s = some d → (60000 : ℚ) ≤ d) := by
  refine ⟨?_, ?_, ?_, ?_⟩
  · intro hs
    rw [computedDelay, if_neg hs, min_comm]
  · intro hrr
    by_cases hs : s = .RATE_LIMITED
    · rw [computedDelay, computedDelay, if_pos hs, if_pos hs]
    · rw [computedDelay, computedDelay, if_neg hs, if_neg hs]
      refine min_le_min ?_ le_rfl
      refine mul_le_mul_of_nonneg_left ?_ (by norm_num)
      exact pow_le_pow_right₀ (by norm_num) hrr
  · by_cases hs : s = .RATE_LIMITED
    · exact Or.inr hs
    · refine Or.inl ?_
      rw [computedDelay, if_neg hs]
      exact min_le_right _ _
  · intro hs b d hd
    rw [scheduleReconnect] at hd
    by_cases hb : (b && decide (r > 5)) = true
    · rw [if_pos hb] at hd
      exact absurd hd (by simp)
    · rw [if_neg hb] at hd
      obtain rfl : computedDelay r s = d := Option.some.inj hd
      rw [computedDelay, if_pos hs]

/-- The events that touch `retryCount` in `useGlobalPeer.ts`:
* `openSuccess` — the `peer.on('open')` handler (line 124 resets it to 0);
* `forceReconnect` — the user-triggered path (line 255 resets it to 0);
* `retryFire` — a scheduled retry timer firing (line 56 increments it);
* `errRateLimit` — the rate-limit branch of `peer.on('error')` (line 185
  forces it to 5);
* `errOther` — the generic-error branch (leaves the counter unchanged);
* `errUnavailableId` — the identity-collision branch (leaves it unchanged). -/
inductive PeerEvent where
  | openSuccess
  | forceReconnect
  | retryFire
  | errRateLimit
  | errOther
  | errUnavailableId
deriving DecidableEq

/-- Effect of each event on `retryCount`. -/
def stepRetry (r : Nat) : PeerEvent → Nat
  | .openSuccess => 0
  | .forceReconnect => 0
  | .retryFire => r + 1
  | .errRateLimit => 5
  | .errOther => r
  | .errUnavailableId => r

/-- C5 counterexample: starting from a reset (`retryCount = 0`), the trace
[rate-limit error, scheduled-retry firing] contains exactly one
scheduled-retry firing and no success event, yet the budget ends at 6, not
at 1 as the claim predicts — the rate-limit branch forces the counter to
the floor 5 in between.  (This trace is realizable: the rate-limit handler
itself schedules the retry timer that then fires.) -/
theorem retry_budget_counterexample :
    ([PeerEvent.errRateLimit, PeerEvent.retryFire].all
        (fun e => !(e == PeerEvent.openSuccess) && !(e == PeerEvent.forceReconnect))) = true ∧
    ([PeerEvent.errRateLimit, PeerEvent.retryFire].count .retryFire = 1) ∧
    List.foldl stepRetry 0 [PeerEvent.errRateLimit, PeerEvent.retryFire] = 6 ∧
    (6 : Nat) ≠ 1 := by
  decide

/-- Auxiliary: over events that are neither a success/reset nor a
rate-limit classification, the budget grows by exactly the number of
scheduled-retry firings. -/
theorem foldl_stepRetry_count (es : List PeerEvent) :
    ∀ r : Nat,
      (∀ e ∈ es, e = .retryFire ∨ e = .errOther ∨ e = .errUnavailableId) →
      List.foldl stepRetry r es = r + es.count .retryFire := by
  induction es with
  | nil => intro r _; simp
  | cons e tl ih =>
      intro r h
      rcases h e (by simp) with he | he | he <;>
        subst he <;>
        rw [List.foldl_cons] <;>
        rw [ih _ (fun x hx => h x (by simp [hx]))] <;>
        simp [stepRetry, List.count_cons] <;>
        omega

/-- C5 (amended): `retryCount` is exactly 0 immediately after every
successful transport open and after every user-triggered `forceReconnect`;
and after N consecutive scheduled-retry firings with no intervening success
AND no intervening rate-limit classification (which instead forces the
counter to the floor 5), the budget equals exactly N. -/
theorem retry_budget_amended (r : Nat) (es : List PeerEvent)
    (h : ∀ e ∈ es, e = .retryFire ∨ e = .errOther ∨ e = .errUnavailableId) :
    stepRetry r .openSuccess = 0 ∧
    stepRetry r .forceReconnect = 0 ∧
    List.foldl stepRetry 0 es = es.count .retryFire := by
  refine ⟨rfl, rfl, ?_⟩
  rw [foldl_stepRetry_count es 0 h]
  omega

/-- Witness for C5 (amended): after a reset, the trace
[firing, generic error, firing] leaves the budget at 2 = number of firings. -/
theorem retry_budget_amended_witness :
    stepRetry 7 .openSuccess = 0 ∧
    stepRetry 7 .forceReconnect = 0 ∧
    List.foldl stepRetry 0 [PeerEvent.retryFire, PeerEvent.errOther, PeerEvent.retryFire] =
      [PeerEvent.retryFire, PeerEvent.errOther, PeerEvent.retryFire].count .retryFire :=
  retry_budget_amended 7 [PeerEvent.retryFire, PeerEvent.errOther, PeerEvent.retryFire]
    (by decide)

/-- What the `peer.on('error')` handler does besides updating state:
an immediate same-tick `initGlobalPeer(fallbackId)` call, a scheduled
backoff timer, or the fatal stop inside `scheduleReconnect`. -/
inductive HandlerEffect where
  | immediateReinit (newId : String)
  | scheduled (d : ℚ)
  | halted
deriving DecidableEq

/-- The supervisor state the error handler reads and writes. -/
structure SupState where
  status : PeerStatus
  retryCount : Nat
deriving DecidableEq

/-- The `peer.on('error')` handler (`useGlobalPeer.ts` lines 169-194).
`rand` models `Math.random()`: the source computes
`Math.floor(Math.random() * 900) + 100`, i.e. `rand % 900 + 100` for an
arbitrary `rand`.  `st` is the committed state when the handler runs.
For `err.type === 'unavailable-id'` it calls `initGlobalPeer` with the
derived identity immediately and returns; otherwise it classifies the
message (rate limit forces status `RATE_LIMITED` and budget 5) and calls
`scheduleReconnect(true)`.

Timing of the two writes, under React 18 `createRoot` (`src/index.tsx`):
`retryCount` is a ref, so `retryCount.current = 5` (line 185) is visible
to the `scheduleReconnect` call at line 192 in the same handling — hence
`st'.retryCount` is passed.  `status`, however, is React state:
`setStatus(...)` (lines 184/187) commits only after the handler returns,
and `statusRef.current` (read at line 51) is synced by a deferred
`useEffect` (line 24) — so the same-tick `scheduleReconnect` still reads
the pre-handler status, hence `st.status` is passed.  The returned
`SupState` is the state once those deferred commits flush. -/
def onPeerError (errType errMsg origId : String) (rand : Nat) (st : SupState) :
    SupState × HandlerEffect :=
  if errType = "unavailable-id" then
    (st, .immediateReinit (origId ++ "-" ++ toString (rand % 900 + 100)))
  else
    let st' : SupState :=
      if strIncludes "Insufficient resources" errMsg || strIncludes "Rate limit" errMsg then
        ⟨.RATE_LIMITED, 5⟩
      else
        ⟨.ERROR, st.retryCount⟩
    match scheduleReconnect true st'.retryCount st.status with
    | none => (⟨.ERROR, st'.retryCount⟩, .halted)
    | some d => (st', .scheduled d)

/-- C6: on an `'unavailable-id'` error the handler immediately re-invokes
`initGlobalPeer`, within the same synchronous handling, with the derived
identity `original ++ "-" ++ suffix` for a random numeric suffix in
[100, 999]; the state (including `retryCount`) is untouched and no backoff
timer is scheduled for that attempt. -/
theorem collision_immediate_fallback (errMsg origId : String) (rand : Nat) (st : SupState) :
    onPeerError "unavailable-id" errMsg origId rand st =
      (st, .immediateReinit (origId ++ "-" ++ toString (rand % 900 + 100))) ∧
    100 ≤ rand % 900 + 100 ∧
    rand % 900 + 100 ≤ 999 ∧
    (∀ d : ℚ, (onPeerError "unavailable-id" errMsg origId rand st).2 ≠ .scheduled d) := by
  have hmod : rand % 900 < 900 := Nat.mod_lt _ (by norm_num)
  refine ⟨rfl, by omega, by omega, ?_⟩
  intro d
  rw [onPeerError, if_pos rfl]
  simp

/-- Witness for C6 at a concrete error event. -/
theorem collision_immediate_fallback_witness :
    onPeerError "unavailable-id" "boom" "alice" 12345 ⟨.ERROR, 3⟩ =
      (⟨.ERROR, 3⟩, .immediateReinit ("alice" ++ "-" ++ toString (12345 % 900 + 100))) ∧
    100 ≤ 12345 % 900 + 100 ∧
    12345 % 900 + 100 ≤ 999 ∧
    (onPeerError "unavailable-id" "boom" "alice" 12345 ⟨.ERROR, 3⟩).2 ≠ .scheduled 2000 := by
  have h := collision_immediate_fallback "boom" "alice" 12345 ⟨.ERROR, 3⟩
  exact ⟨h.1, h.2.1, h.2.2.1, h.2.2.2 2000⟩

/-- Auxiliary equation: handling a rate-limit-classified error (any
non-collision `errType`) commits `RATE_LIMITED` with budget 5, but the
retry it schedules uses the delay computed against the pre-handler status
`st.status` — the value `statusRef.current` still holds in that tick. -/
theorem onPeerError_classified (errType errMsg origId : String) (rand : Nat) (st : SupState)
    (hT : errType ≠ "unavailable-id")
    (hcls : (strIncludes "Insufficient resources" errMsg ||
        strIncludes "Rate limit" errMsg) = true) :
    onPeerError errType errMsg origId rand st =
      (⟨.RATE_LIMITED, 5⟩, .scheduled (computedDelay 5 st.status)) := by
  have hsch : scheduleReconnect true 5 st.status = some (computedDelay 5 st.status) := by
    rw [scheduleReconnect, if_neg (by decide)]
  rw [onPeerError, if_neg hT, if_pos hcls]
  simp only []
  rw [hsch]

/-- C4 counterexample: a rate-limit-classified error (message
`'Rate limit exceeded'`) arriving while the committed status is `ERROR`
forces the budget to 5 and commits `RATE_LIMITED`, but the retry scheduled
within that same handling reads the stale pre-error status and uses
`min(2000·1.5⁵, 30000) = 15187.5 ms` — strictly below the 60000 ms floor
the claim asserts for every rate-limit classification. -/
theorem backoff_rate_limit_floor_counterexample :
    (onPeerError "network-error" "Rate limit exceeded" "alice" 7 ⟨.ERROR, 2⟩).1 =
      ⟨.RATE_LIMITED, 5⟩ ∧
    (onPeerError "network-error" "Rate limit exceeded" "alice" 7 ⟨.ERROR, 2⟩).2 =
      .scheduled (30375 / 2) ∧
    (30375 / 2 : ℚ) < 60000 := by
  have hstep := onPeerError_classified "network-error" "Rate limit exceeded" "alice" 7
    ⟨.ERROR, 2⟩ (by decide) (by decide)
  have hd : computedDelay 5 PeerStatus.ERROR = 30375 / 2 := by
    rw [computedDelay, if_neg (by decide), min_eq_left (by norm_num)]
    norm_num
  rw [hstep]
  refine ⟨rfl, ?_, by norm_num⟩
  rw [show (⟨PeerStatus.ERROR, 2⟩ : SupState).status = PeerStatus.ERROR from rfl, hd]

/-- C4 (amended): for every RetryBudget `r`, the computed reconnect delay
equals `min(30000, 2000·1.5^r)`, hence is non-decreasing in `r` and never
exceeds the configured maximum; and the 60000 ms rate-limit floor governs
a scheduled retry exactly when the status `scheduleReconnect` reads — the
status committed *before* the error being handled (`statusRef.current`,
synced by a deferred effect) — is `RATE_LIMITED`.  In particular, a
rate-limit-classified error arriving in any other committed status forces
the budget to 5 but schedules its own retry with the computed delay
`min(2000·1.5⁵, 30000) = 15187.5 ms`, below the floor, while a
rate-limit-classified error arriving once `RATE_LIMITED` has committed
schedules the full 60000 ms. -/
theorem backoff_delay_amended (r r' : Nat) (s : PeerStatus)
    (errType errMsg origId : String) (rand : Nat) (st : SupState) :
    (s ≠ .RATE_LIMITED → computedDelay r s = min (30000 : ℚ) (2000 * (3 / 2 : ℚ) ^ r)) ∧
    (r ≤ r' → computedDelay r s ≤ computedDelay r' s) ∧
    (computedDelay r s ≤ 30000 ∨ s = .RATE_LIMITED) ∧
    (s = .RATE_LIMITED →
      ∀ (b : Bool) (d : ℚ), scheduleReconnect b r s = some d → (60000 : ℚ) ≤ d) ∧
    (errType ≠ "unavailable-id" →
      (strIncludes "Insufficient resources" errMsg ||
        strIncludes "Rate limit" errMsg) = true →
      st.status ≠ .RATE_LIMITED →
      (onPeerError errType errMsg origId rand st).1 = ⟨.RATE_LIMITED, 5⟩ ∧
      (onPeerError errType errMsg origId rand st).2 =
        .scheduled (min (2000 * (3 / 2 : ℚ) ^ 5) 30000) ∧
      min (2000 * (3 / 2 : ℚ) ^ 5) 30000 < 60000) ∧
    (errType ≠ "unavailable-id" →
      (strIncludes "Insufficient resources" errMsg ||
        strIncludes "Rate limit" errMsg) = true →
      st.status = .RATE_LIMITED →
      (onPeerError errType errMsg origId rand st).2 = .scheduled 60000) := by
  refine ⟨(backoff_delay_spec r r' s).1, (backoff_delay_spec r r' s).2.1,
    (backoff_delay_spec r r' s).2.2.1, (backoff_delay_spec r r' s).2.2.2, ?_, ?_⟩
  · intro hT hcls hS
    rw [onPeerError_classified errType errMsg origId rand st hT hcls]
    refine ⟨rfl, ?_, lt_of_le_of_lt (min_le_left _ _) (by norm_num)⟩
    rw [computedDelay, if_neg hS]
  · intro hT hcls hS
    rw [onPeerError_classified errType errMsg origId rand st hT hcls, computedDelay,
      if_pos hS]

/-- Witness for C4 (amended): the formula, monotonicity and cap at budget
2 → 3 in state `ERROR`; the floor at a retry scheduled while the read
status is `RATE_LIMITED`; the below-floor same-handling delay of a
rate-limit classification arriving in status `ERROR`; and the floored
delay of one arriving after `RATE_LIMITED` committed. -/
theorem backoff_delay_amended_witness :
    computedDelay 2 .ERROR = min (30000 : ℚ) (2000 * (3 / 2 : ℚ) ^ 2) ∧
    computedDelay 2 .ERROR ≤ computedDelay 3 .ERROR ∧
    (computedDelay 2 .ERROR ≤ 30000 ∨ PeerStatus.ERROR = PeerStatus.RATE_LIMITED) ∧
    (60000 : ℚ) ≤ 60000 ∧
    (onPeerError "network-error" "Rate limit exceeded" "alice" 7 ⟨.ERROR, 2⟩).2 =
      .scheduled (min (2000 * (3 / 2 : ℚ) ^ 5) 30000) ∧
    min (2000 * (3 / 2 : ℚ) ^ 5) 30000 < 60000 ∧
    (onPeerError "network-error" "Rate limit exceeded" "alice" 7 ⟨.RATE_LIMITED, 9⟩).2 =
      .scheduled 60000 := by
  have hA := backoff_delay_amended 2 3 .ERROR "network-error" "Rate limit exceeded"
    "alice" 7 ⟨.ERROR, 2⟩
  have hB := backoff_delay_amended 2 3 .RATE_LIMITED "network-error" "Rate limit exceeded"
    "alice" 7 ⟨.RATE_LIMITED, 9⟩
  have hE := hA.2.2.2.2.1 (by decide) (by decide) (by decide)
  exact ⟨hA.1 (by decide), hA.2.1 (by norm_num), hA.2.2.1,
    hB.2.2.2.1 rfl false 60000 rfl, hE.2.1, hE.2.2,
    hB.2.2.2.2.2 (by decide) (by decide) rfl⟩

end PeerSup

namespace Hanisah

/-- `estimateTokens` (`part_001` line 20): `Math.ceil(text.length / 4)`. -/
def estimateTokens (text : String) : Nat := (text.length + 3) / 4

/-- One stored history entry of `HanisahKernel`.  `contentStr` is the string
whose length the trimmer estimates: `entry.content` when that is a string,
otherwise `JSON.stringify(entry.parts)` (`part_001` line 47). -/
structure Entry where
  role : String
  contentStr : String
deriving DecidableEq

/-- The input-token budget of `buildContext` (`part_001` line 42):
`Math.max(4000, limit - 4000)`.  (In JavaScript `limit - 4000` may be
negative; `max` with 4000 makes truncated `Nat` subtraction equivalent.) -/
def maxInputTokens (limit : Nat) : Nat := max 4000 (limit - 4000)

/-- The newest-to-oldest walk of `buildContext` (`part_001` lines 45-53)
over the reversed history: keep an entry while the accumulated estimate
stays strictly under the budget, stop at the first entry that does not fit. -/
def takeFitting (B : Nat) : List Entry → Nat → List Entry
  | [], _ => []
  | e :: rest, used =>
    if used + estimateTokens e.contentStr < B then
      e :: takeFitting B rest (used + estimateTokens e.contentStr)
    else []

/-- `HanisahKernel.buildContext` (`part_001` lines 41-55): seeds the counter
with the system prompt and current message, walks the history
newest-to-oldest (`unshift` restores oldest-first order, hence the
`reverse`s), and returns the retained entries.  Pure: the stored history
list is not modified. -/
def buildContext (history : List Entry) (currentMsg systemPrompt : String) (limit : Nat) :
    List Entry :=
  (takeFitting (maxInputTokens limit) history.reverse
    (estimateTokens systemPrompt + estimateTokens currentMsg)).reverse

/-- Total estimated token cost of a list of entries. -/
def sumEst (l : List Entry) : Nat := (l.map (fun e => estimateTokens e.contentStr)).sum

/-- Behaviour of one candidate of `streamExecute`'s failover plan:
`noKey` — `GLOBAL_VAULT.getKey` returned null, the candidate is skipped
(`part_001` line 73); `ran chunks failed` — a credential was found and a
network dispatch happened, yielding `chunks` and then either completing
normally (`failed = false`) or throwing (`failed = true`, the `catch` at
lines 180-183). -/
inductive CandOutcome where
  | noKey
  | ran (chunks : List String) (failed : Bool)
deriving DecidableEq

/-- A chunk observed by the consumer of `streamExecute`: streamed content
text, or the `metadata` rerouting status chunk of line 182. -/
inductive OutChunk where
  | content (s : String)
  | rerouting (next : String)
deriving DecidableEq

/-- The "no API keys" terminal message (`part_001` line 189). -/
def noKeysText : String :=
  "\n\n> ⚠️ **SYSTEM HALT: NO API KEYS DETECTED**\n\nSistem tidak menemukan kunci API lokal dan Backend Proxy gagal dihubungi."

/-- Constant prefix of the "all providers failed" terminal message
(`part_001` line 191). -/
def allFailedPre : String := "\n\n> ⚠️ **CONNECTION FAILURE**\n\nSemua provider AI ("

/-- Constant suffix of the "all providers failed" terminal message. -/
def allFailedPost : String := ") gagal merespons. Periksa koneksi internet."

/-- The "all providers failed" terminal message, parameterised by the
`attempts` counter interpolated into it. -/
def allFailedText (n : Nat) : String := allFailedPre ++ toString n ++ allFailedPost

/-- The failover loop of `HanisahKernel.streamExecute` (`part_001` lines
67-193), for the default call without an abort signal: walks the plan,
skips candidates without a credential (no `attempts` increment), dispatches
the others (incrementing `attempts`), forwards their chunks, emits a
rerouting chunk after a failure when a next candidate exists, returns as
soon as a dispatch completes with `hasYielded` set, and otherwise falls
through to the terminal-message selection (lines 186-193).  Returns the
chunk list the consumer observes and the final `attempts` counter. -/
def runPlan (env : String → CandOutcome) : List String → Nat → Bool → List OutChunk × Nat
  | [], att, hy =>
      (if hy then []
       else if att = 0 then [.content noKeysText] else [.content (allFailedText att)], att)
  | m :: rest, att, hy =>
      match env m with
      | .noKey => runPlan env rest att hy
      | .ran cs failed =>
          if failed then
            ((cs.map .content) ++
              (match rest with
               | [] => []
               | next :: _ => [.rerouting next]) ++
              (runPlan env rest (att + 1) (hy || !cs.isEmpty)).1,
             (runPlan env rest (att + 1) (hy || !cs.isEmpty)).2)
          else
            if hy || !cs.isEmpty then (cs.map .content, att + 1)
            else runPlan env rest (att + 1) (hy || !cs.isEmpty)

/-- `streamExecute` entry point: fresh `attempts = 0`, `hasYielded = false`. -/
def streamExecute (plan : List String) (env : String → CandOutcome) : List OutChunk × Nat :=
  runPlan env plan 0 false

/-- The two terminal messages differ (at their 10th character, 'S' vs 'C'),
for every interpolated attempts count. -/
theorem noKeys_ne_allFailed (n : Nat) : noKeysText ≠ allFailedText n := by
  intro h
  have hd := congrArg String.data h
  rw [allFailedText, String.data_append, String.data_append] at hd
  have ht := congrArg (List.take 12) hd
  rw [List.append_assoc, List.take_append_of_le_length (by decide)] at ht
  exact absurd ht (by decide)

/-- Auxiliary: a plan whose candidates all lack credentials is walked to the
end without any effect on the accumulators. -/
theorem runPlan_all_noKey (env : String → CandOutcome) :
    ∀ (plan : List String) (att : Nat) (hy : Bool),
      (∀ m ∈ plan, env m = .noKey) → runPlan env plan att hy = runPlan env [] att hy := by
  intro plan
  induction plan with
  | nil => intro att hy _; rfl
  | cons m rest ih =>
      intro att hy h
      have hm : env m = .noKey := h m (by simp)
      simp only [runPlan, hm]
      exact ih att hy (fun x hx => h x (by simp [hx]))

/-- Auxiliary equation: a dispatched candidate that yields nothing and
throws advances the walk with `attempts + 1`, contributing only its
possible rerouting chunk. -/
theorem runPlan_deadfail_fst (env : String → CandOutcome) (m : String) (rest : List String)
    (att : Nat) (hy : Bool) (hm : env m = .ran [] true) :
    (runPlan env (m :: rest) att hy).1 =
      (match rest with
       | [] => ([] : List OutChunk)
       | next :: _ => [.rerouting next]) ++ (runPlan env rest (att + 1) hy).1 := by
  simp [runPlan, hm]

/-- Auxiliary equation: the `attempts` component of the same step. -/
theorem runPlan_deadfail_snd (env : String → CandOutcome) (m : String) (rest : List String)
    (att : Nat) (hy : Bool) (hm : env m = .ran [] true) :
    (runPlan env (m :: rest) att hy).2 = (runPlan env rest (att + 1) hy).2 := by
  simp [runPlan, hm]

/-- Auxiliary: over a plan whose candidates either lack credentials or
dispatch-and-fail yielding nothing, the final `attempts` counter adds one
per dispatched candidate, the output is non-empty, and it ends with the
terminal message selected by the final counter. -/
theorem runPlan_dead (env : String → CandOutcome) :
    ∀ (plan : List String) (att : Nat),
      (∀ m ∈ plan, env m = .noKey ∨ env m = .ran [] true) →
      (runPlan env plan att false).2 =
          att + plan.countP (fun m => decide (env m ≠ .noKey)) ∧
      (runPlan env plan att false).1 ≠ [] ∧
      (runPlan env plan att false).1.getLast? =
        some (.content
          (if att + plan.countP (fun m => decide (env m ≠ .noKey)) = 0 then noKeysText
           else allFailedText (att + plan.countP (fun m => decide (env m ≠ .noKey))))) := by
  intro plan
  induction plan with
  | nil =>
      intro att _
      refine ⟨by simp [runPlan], ?_, ?_⟩ <;>
        by_cases h0 : att = 0 <;> simp [runPlan, h0]
  | cons m rest ih =>
      intro att h
      rcases h m (by simp) with hm | hm
      · have hcnt : (m :: rest).countP (fun x => decide (env x ≠ CandOutcome.noKey)) =
            rest.countP (fun x => decide (env x ≠ CandOutcome.noKey)) := by
          simp [List.countP_cons, hm]
        simp only [runPlan, hm, hcnt]
        exact ih att (fun x hx => h x (by simp [hx]))
      · have ihr := ih (att + 1) (fun x hx => h x (by simp [hx]))
        have hcnt : (m :: rest).countP (fun x => decide (env x ≠ CandOutcome.noKey)) =
            rest.countP (fun x => decide (env x ≠ CandOutcome.noKey)) + 1 := by
          simp [List.countP_cons, hm]
        have harith : att + 1 + rest.countP (fun x => decide (env x ≠ CandOutcome.noKey)) =
            att + (rest.countP (fun x => decide (env x ≠ CandOutcome.noKey)) + 1) := by
          omega
        refine ⟨?_, ?_, ?_⟩
        · rw [runPlan_deadfail_snd env m rest att false hm, ihr.1, hcnt, harith]
        · rw [runPlan_deadfail_fst env m rest att false hm]
          intro hcontra
          exact ihr.2.1 (List.append_eq_nil.mp hcontra).2
        · rw [runPlan_deadfail_fst env m rest att false hm,
            List.getLast?_append_of_ne_nil _ ihr.2.1, ihr.2.2, hcnt, ← harith]

/-- C7: when no candidate yields any output, `streamExecute` ends with a
terminal message delivered as a content chunk (the model returns it as
data; nothing is thrown), and the message distinguishes "zero candidates
dispatched because no credentials were available" (the no-API-keys message,
with the attempts counter — hence the number of network dispatches — at 0)
from "at least one candidate dispatched and all failed" (the
connection-failure message naming the number of dispatched candidates);
candidates skipped for lack of a credential are not counted. -/
theorem failover_terminal_messages (plan : List String) (env : String → CandOutcome)
    (hdead : ∀ m ∈ plan, env m = .noKey ∨ env m = .ran [] true) :
    ((∀ m ∈ plan, env m = .noKey) →
        streamExecute plan env = ([.content noKeysText], 0)) ∧
    ((∃ m ∈ plan, env m ≠ .noKey) →
        (streamExecute plan env).2 = plan.countP (fun m => decide (env m ≠ .noKey)) ∧
        1 ≤ (streamExecute plan env).2 ∧
        (streamExecute plan env).1.getLast? =
          some (.content (allFailedText (streamExecute plan env).2))) ∧
    (∀ n, noKeysText ≠ allFailedText n) := by
  refine ⟨?_, ?_, noKeys_ne_allFailed⟩
  · intro hall
    unfold streamExecute
    rw [runPlan_all_noKey env plan 0 false hall]
    rfl
  · intro hex
    have hd := runPlan_dead env plan 0 hdead
    have hcnt : 0 < plan.countP (fun m => decide (env m ≠ CandOutcome.noKey)) := by
      rw [List.countP_pos_iff]
      obtain ⟨m, hm, hne⟩ := hex
      exact ⟨m, hm, by simp [hne]⟩
    unfold streamExecute
    refine ⟨by rw [hd.1]; omega, by rw [hd.1]; omega, ?_⟩
    rw [hd.2.2, hd.1]
    have hz : ¬(0 + plan.countP (fun m => decide (env m ≠ CandOutcome.noKey)) = 0) := by omega
    rw [if_neg hz]

/-- Witness environment for C7: every candidate lacks a credential. -/
def envAllNoKey : String → CandOutcome := fun _ => CandOutcome.noKey

/-- Witness environment for C7: "modelA" has no credential (skipped),
"modelB" and "modelC" dispatch and fail without yielding. -/
def envDead : String → CandOutcome := fun m =>
  if m = "modelA" then CandOutcome.noKey else CandOutcome.ran [] true

/-- Witness for C7 at concrete plans: the empty-pool plan yields exactly the
no-API-keys message with zero dispatches, and the plan with two failing
dispatches ends with the connection-failure message counting 2 attempts
(the skipped candidate not counted). -/
theorem failover_terminal_messages_witness :
    streamExecute ["modelA", "modelB"] envAllNoKey = ([.content noKeysText], 0) ∧
    (streamExecute ["modelA", "modelB", "modelC"] envDead).2 = 2 ∧
    (streamExecute ["modelA", "modelB", "modelC"] envDead).1.getLast? =
      some (.content (allFailedText (streamExecute ["modelA", "modelB", "modelC"] envDead).2)) ∧
    noKeysText ≠ allFailedText 2 := by
  have h1 := failover_terminal_messages ["modelA", "modelB"] envAllNoKey
    (by intro m _; exact Or.inl rfl)
  have h2 := failover_terminal_messages ["modelA", "modelB", "modelC"] envDead
    (by decide)
  have hcount : (["modelA", "modelB", "modelC"].countP
      (fun m => decide (envDead m ≠ CandOutcome.noKey))) = 2 := by decide
  have hex : ∃ m ∈ ["modelA", "modelB", "modelC"], envDead m ≠ CandOutcome.noKey := by decide
  refine ⟨h1.1 (fun m _ => rfl), ?_, (h2.2.1 hex).2.2, h2.2.2 2⟩
  rw [(h2.2.1 hex).1, hcount]

/-- C8 counterexample entry: 100 characters, 25 estimated tokens. -/
def entC8 : Entry :=
  ⟨"user",
   "aaaaaaaaaaaaaaaaaaaaaaaaaaaaaaaaaaaaaaaaaaaaaaaaaaaaaaaaaaaaaaaaaaaaaaaaaaaaaaaaaaaaaaaaaaaaaaaaaa"⟩

/-- C8 counterexample: with context limit 4000 the entry is retained by
`buildContext` although the accumulated estimated cost (25 tokens) does NOT
stay under `limit - 4000 = 0` — the budget actually used is
`max(4000, limit - 4000)`, not `limit` minus the reserved headroom. -/
theorem trim_budget_counterexample :
    buildContext [entC8] "" "" 4000 = [entC8] ∧
    ¬(estimateTokens "" + estimateTokens "" + sumEst [entC8] < 4000 - 4000) := by
  decide

/-- Auxiliary: the kept entries form a prefix of the reversed-history walk. -/
theorem takeFitting_isPrefix (B : Nat) :
    ∀ (l : List Entry) (used : Nat), (takeFitting B l used).IsPrefix l := by
  intro l
  induction l with
  | nil => intro used; exact List.nil_prefix
  | cons e rest ih =>
      intro used
      rw [takeFitting]
      by_cases h : used + estimateTokens e.contentStr < B
      · rw [if_pos h]
        obtain ⟨t, ht⟩ := ih (used + estimateTokens e.contentStr)
        exact ⟨t, by rw [List.cons_append, ht]⟩
      · rw [if_neg h]
        exact List.nil_prefix

/-- Auxiliary: whenever something is kept, the accumulated estimate of the
kept entries stays under the budget. -/
theorem takeFitting_total (B : Nat) :
    ∀ (l : List Entry) (used : Nat),
      takeFitting B l used ≠ [] → used + sumEst (takeFitting B l used) < B := by
  intro l
  induction l with
  | nil => intro used h; exact absurd rfl h
  | cons e rest ih =>
      intro used h
      rw [takeFitting] at h ⊢
      by_cases hc : used + estimateTokens e.contentStr < B
      · rw [if_pos hc] at h ⊢
        by_cases h2 : takeFitting B rest (used + estimateTokens e.contentStr) = []
        · rw [h2]
          simpa [sumEst] using hc
        · have := ih (used + estimateTokens e.contentStr) h2
          simp only [sumEst, List.map_cons, List.sum_cons] at this ⊢
          omega
      · rw [if_neg hc] at h
        exact absurd rfl h

/-- Auxiliary: the walk stops exactly at the first entry that does not fit. -/
theorem takeFitting_stop (B : Nat) :
    ∀ (l : List Entry) (used : Nat) (e : Entry) (rest : List Entry),
      l = takeFitting B l used ++ e :: rest →
      ¬(used + sumEst (takeFitting B l used) + estimateTokens e.contentStr < B) := by
  intro l
  induction l with
  | nil =>
      intro used e rest h
      rw [takeFitting] at h
      exact absurd h (by simp)
  | cons a t ih =>
      intro used e rest h
      by_cases hc : used + estimateTokens a.contentStr < B
      · rw [takeFitting, if_pos hc] at h ⊢
        rw [List.cons_append] at h
        simp only [List.cons.injEq] at h
        have := ih (used + estimateTokens a.contentStr) e rest h.2
        simp only [sumEst, List.map_cons, List.sum_cons] at this ⊢
        omega
      · rw [takeFitting, if_neg hc] at h ⊢
        simp only [List.nil_append, List.cons.injEq] at h
        obtain ⟨rfl, -⟩ := h
        simp only [sumEst, List.map_nil, List.sum_nil]
        omega

/-- Estimated cost is invariant under restoring the original order. -/
theorem sumEst_reverse (l : List Entry) : sumEst l.reverse = sumEst l := by
  rw [sumEst, sumEst, List.map_reverse, List.sum_reverse]

/-- C8 (amended): `buildContext` walks the stored history newest-to-oldest,
includes an entry only while the accumulated estimated cost (system prompt
+ current message + included entries) stays strictly under the budget
`max(4000, limit - 4000)` — the limit minus the 4000-token reserved
headroom, floored at 4000 — stops at the first entry that does not fit,
and returns the retained entries oldest-first among those retained (a
suffix of the stored history, which itself is left unmodified: the
function is pure). -/
theorem buildContext_amended (history : List Entry) (msg sys : String) (limit : Nat) :
    List.IsSuffix (buildContext history msg sys limit) history ∧
    (buildContext history msg sys limit ≠ [] →
      estimateTokens sys + estimateTokens msg + sumEst (buildContext history msg sys limit) <
        maxInputTokens limit) ∧
    (∀ (p : List Entry) (e : Entry),
      history = p ++ e :: buildContext history msg sys limit →
      ¬(estimateTokens sys + estimateTokens msg + sumEst (buildContext history msg sys limit) +
          estimateTokens e.contentStr < maxInputTokens limit)) := by
  refine ⟨?_, ?_, ?_⟩
  · unfold buildContext
    have h := takeFitting_isPrefix (maxInputTokens limit) history.reverse
      (estimateTokens sys + estimateTokens msg)
    have h2 := List.reverse_suffix.mpr h
    rwa [List.reverse_reverse] at h2
  · intro hne
    unfold buildContext at hne ⊢
    rw [sumEst_reverse]
    have hne' : takeFitting (maxInputTokens limit) history.reverse
        (estimateTokens sys + estimateTokens msg) ≠ [] := by
      intro hnil
      exact hne (by rw [hnil]; rfl)
    have := takeFitting_total (maxInputTokens limit) history.reverse
      (estimateTokens sys + estimateTokens msg) hne'
    omega
  · intro p e hsplit
    unfold buildContext at hsplit ⊢
    rw [sumEst_reverse]
    have hrev : history.reverse =
        takeFitting (maxInputTokens limit) history.reverse
          (estimateTokens sys + estimateTokens msg) ++ e :: p.reverse := by
      conv_lhs => rw [hsplit]
      simp [List.reverse_append, List.append_assoc]
    have := takeFitting_stop (maxInputTokens limit) history.reverse
      (estimateTokens sys + estimateTokens msg) e p.reverse hrev
    omega

/-- Witness system prompt for C8 (amended): 15000 characters, 3750 tokens. -/
def sysW : String := String.mk (List.replicate 15000 'a')

/-- Witness history entry (newer, small: 1 token). -/
def entSmallW : Entry := ⟨"user", "abcd"⟩

/-- Witness history entry (older, large: 250 tokens, does not fit). -/
def entBigW : Entry := ⟨"model", String.mk (List.replicate 1000 'b')⟩

/-- Witness for C8 (amended) at a concrete trimming: with budget 4000 and a
3750-token system prompt, the newer 1-token entry is retained (a suffix of
the history) under budget, and the next older 250-token entry is the first
that does not fit. -/
theorem buildContext_amended_witness :
    List.IsSuffix (buildContext [entBigW, entSmallW] "" sysW 4000) [entBigW, entSmallW] ∧
    estimateTokens sysW + estimateTokens "" +
        sumEst (buildContext [entBigW, entSmallW] "" sysW 4000) < maxInputTokens 4000 ∧
    ¬(estimateTokens sysW + estimateTokens "" +
        sumEst (buildContext [entBigW, entSmallW] "" sysW 4000) +
        estimateTokens entBigW.contentStr < maxInputTokens 4000) := by
  have h := buildContext_amended [entBigW, entSmallW] "" sysW 4000
  have hSys : estimateTokens sysW = 3750 := by
    rw [estimateTokens, sysW, String.length_mk, List.length_replicate]
  have hBig : estimateTokens entBigW.contentStr = 250 := by
    rw [estimateTokens, entBigW, String.length_mk, List.length_replicate]
  have hSmall : estimateTokens entSmallW.contentStr = 1 := rfl
  have hEmpty : estimateTokens "" = 0 := rfl
  have hbc : buildContext [entBigW, entSmallW] "" sysW 4000 = [entSmallW] := by
    rw [buildContext]
    have hr : ([entBigW, entSmallW] : List Entry).reverse = [entSmallW, entBigW] := rfl
    rw [hr, takeFitting, hEmpty, hSys, hSmall,
      if_pos (by rw [maxInputTokens]; norm_num), takeFitting, hBig,
      if_neg (by rw [maxInputTokens]; norm_num)]
    rfl
  refine ⟨h.1, h.2.1 (by rw [hbc]; simp), h.2.2 [] entBigW (by rw [hbc]; rfl)⟩

/-- C10: for every context limit `L`, `buildContext` budgets
`max(4000, L - 4000)` estimated tokens; when `L < 8000` the budget is the
fixed floor 4000, which exceeds `L - 4000`; and concretely at `L = 4000`
the trimmer retains an entry whose cost does not fit under
`limit - headroom` at all. -/
theorem context_budget_floor (L : Nat) (hL : L < 8000) :
    (∀ L' : Nat, maxInputTokens L' = max 4000 (L' - 4000)) ∧
    maxInputTokens L = 4000 ∧
    L - 4000 < 4000 ∧
    buildContext [entSmallW] "" "" 4000 = [entSmallW] ∧
    ¬(estimateTokens "" + estimateTokens "" + sumEst [entSmallW] < 4000 - 4000) := by
  refine ⟨fun _ => rfl, ?_, by omega, by decide, by decide⟩
  rw [maxInputTokens, Nat.max_eq_left (by omega)]

/-- Witness for C10 at `L = 4000`. -/
theorem context_budget_floor_witness :
    maxInputTokens 4000 = 4000 ∧
    4000 - 4000 < 4000 ∧
    buildContext [entSmallW] "" "" 4000 = [entSmallW] ∧
    ¬(estimateTokens "" + estimateTokens "" + sumEst [entSmallW] < 4000 - 4000) :=
  (context_budget_floor 4000 (by norm_num)).2

end Hanisah

namespace Hydra

/-- Key status (`useGlobalPeer.ts` line 984). -/
inductive KeyStatus where
  | ACTIVE
  | COOLDOWN
deriving DecidableEq, Inhabited

/-- One `KeyRecord` of the vault (lines 986-993).  `cloakedKey` stores
`SECURITY_MATRIX.cloak` of the credential (the `id` field is presentation
metadata and not consulted by `getKey`/`reportFailure`). -/
structure KeyRecord where
  cloakedKey : String
  status : KeyStatus
  fails : Nat
  cooldownUntil : Nat
deriving DecidableEq, Inhabited

/-- One provider's pool together with its round-robin cursor
(`vault[provider]` and `counters[provider]`, lines 1003-1004). -/
structure VaultPool where
  records : List KeyRecord
  counter : Nat
deriving DecidableEq

/-- The auto-heal step of `getKey` (lines 1064-1069): a cooled-down record
whose expiry has passed becomes `ACTIVE` with `fails` reset. -/
def healRecord (now : Nat) (k : KeyRecord) : KeyRecord :=
  if k.status = .COOLDOWN ∧ k.cooldownUntil ≤ now then
    { k with status := .ACTIVE, fails := 0 }
  else k

/-- `HydraVault.getKey` for one provider (lines 1057-1089), parameterised by
the external `SECURITY_MATRIX.decloak` capability: heal expired cooldowns
in place, filter to `ACTIVE`, return the round-robin pick (advancing the
per-provider cursor), or `none` when the pool is empty or nothing is
eligible.  (The server-managed inspection at lines 1073-1081 returns `null`
on both of its branches, so it is observationally the plain `none` of the
no-eligible case.)  The index is `counter % activeKeys.length`, always in
range, so `getD`'s default is never consulted. -/
def getKey (decloak : String → String) (p : VaultPool) (now : Nat) :
    Option String × VaultPool :=
  if p.records.isEmpty then (none, p)
  else
    let healed := p.records.map (healRecord now)
    let active := healed.filter (fun k => k.status = .ACTIVE)
    if active.length = 0 then (none, { records := healed, counter := p.counter })
    else
      let idx := p.counter % active.length
      (some (decloak (active.getD idx default).cloakedKey),
       { records := healed, counter := (idx + 1) % active.length })

/-- The cooldown grading of `reportFailure` (lines 1106-1113).  The
argument is `errStr = JSON.stringify(error).toLowerCase()` as computed at
line 1106 (the lower-casing is part of the boundary decoding): rate-limit/
quota/429 text → 300 s, overload/503 text → 60 s, anything else → 30 s. -/
def penaltyMs (errStr : String) : Nat :=
  if strIncludes "429" errStr || strIncludes "quota" errStr ||
      strIncludes "limit" errStr then 300000
  else if strIncludes "503" errStr || strIncludes "overloaded" errStr then 60000
  else 30000

/-- The mutation `reportFailure` applies to the located record (lines
1103-1115): failure count up, flip to cooldown, expiry `now + penalty`. -/
def bumpRecord (r : KeyRecord) (pen now : Nat) : KeyRecord :=
  { r with fails := r.fails + 1, status := .COOLDOWN, cooldownUntil := now + pen }

/-- `pool.find(...)` plus in-place mutation: bump the first record whose
cloaked key matches; leave everything else unchanged (no-op when nothing
matches, line 1101). -/
def bumpFirst (hash : String) (pen now : Nat) : List KeyRecord → List KeyRecord
  | [] => []
  | k :: rest =>
      if k.cloakedKey = hash then bumpRecord k pen now :: rest
      else k :: bumpFirst hash pen now rest

/-- `HydraVault.reportFailure` (lines 1091-1116), parameterised by the
external `SECURITY_MATRIX.cloak` capability: the `'server-side-managed'`
sentinel is only logged and exempt from all cooldown bookkeeping; otherwise
the first record matching the cloaked credential enters cooldown. -/
def reportFailure (cloak : String → String) (p : VaultPool) (plainKey err : String)
    (now : Nat) : VaultPool :=
  if plainKey = "server-side-managed" then p
  else { p with records := bumpFirst (cloak plainKey) (penaltyMs err) now p.records }

/-- Healing never changes which credential a record holds. -/
theorem healRecord_cloakedKey (now : Nat) (k : KeyRecord) :
    (healRecord now k).cloakedKey = k.cloakedKey := by
  rw [healRecord]
  split <;> rfl

/-- `bumpFirst` on a pool split around the first match bumps exactly the
matching record. -/
theorem bumpFirst_split (hash : String) (pen now : Nat) :
    ∀ (pre : List KeyRecord) (r : KeyRecord) (post : List KeyRecord),
      r.cloakedKey = hash → (∀ x ∈ pre, x.cloakedKey ≠ hash) →
      bumpFirst hash pen now (pre ++ r :: post) = pre ++ bumpRecord r pen now :: post := by
  intro pre
  induction pre with
  | nil =>
      intro r post hr _
      rw [List.nil_append, List.nil_append, bumpFirst, if_pos hr]
  | cons a t ih =>
      intro r post hr hpre
      rw [List.cons_append, bumpFirst, if_neg (hpre a (by simp)), List.cons_append,
        ih r post hr (fun x hx => hpre x (by simp [hx]))]

/-- Any credential `getKey` returns is the decloaking of some stored
record that is `ACTIVE` after the heal pass. -/
theorem getKey_some_mem (decloak : String → String) (p : VaultPool) (now : Nat) (k : String)
    (h : (getKey decloak p now).1 = some k) :
    ∃ rec ∈ p.records, (healRecord now rec).status = .ACTIVE ∧
      k = decloak (healRecord now rec).cloakedKey := by
  simp only [getKey] at h
  split at h
  · exact absurd h (by simp)
  · split at h
    · exact absurd h (by simp)
    · rename_i hlen
      simp only [Option.some.injEq] at h
      set active := (p.records.map (healRecord now)).filter (fun k => k.status = .ACTIVE)
        with hactive
      have hidx : p.counter % active.length < active.length :=
        Nat.mod_lt _ (Nat.pos_of_ne_zero hlen)
      have hget : active.getD (p.counter % active.length) default =
          active.get ⟨p.counter % active.length, hidx⟩ := by
        rw [List.getD_eq_getElem _ _ hidx]
        rfl
      have hmemA : active.getD (p.counter % active.length) default ∈ active := by
        rw [hget]
        exact List.get_mem _ _ _
      have hmemF := List.mem_filter.mp (hactive ▸ hmemA)
      obtain ⟨rec, hrec, hrec2⟩ := List.mem_map.mp hmemF.1
      refine ⟨rec, hrec, ?_, ?_⟩
      · rw [hrec2]
        simpa using hmemF.2
      · rw [hrec2, ← h]

/-- Bumping never changes which credential a record holds. -/
theorem bumpRecord_cloakedKey (r : KeyRecord) (pen now : Nat) :
    (bumpRecord r pen now).cloakedKey = r.cloakedKey := rfl

end Hydra

namespace Hydra

/-- C9: reporting a (non-sentinel) credential failure bumps exactly the
matching record — failure count incremented, status `COOLDOWN`, expiry
`now + D` — where `D` is graded by classifying the error text
(rate-limit/quota/429 → 300 s, overload/503 → 60 s, anything else → 30 s);
the `'server-side-managed'` sentinel is exempt from this bookkeeping;
`getKey` calls strictly before `cooldown-start + D` never return that
credential (for any round-robin cursor), and calls at or after that time
can return it again (some cursor yields it; with it, the record has been
auto-healed to `ACTIVE`). -/
theorem vault_cooldown_roundtrip
    (cloak decloak : String → String) (hcd : ∀ s, decloak (cloak s) = s)
    (p : VaultPool) (plain err : String) (t0 : Nat)
    (hplain : plain ≠ "server-side-managed")
    (pre post : List KeyRecord) (r : KeyRecord)
    (hsplit : p.records = pre ++ r :: post)
    (hr : r.cloakedKey = cloak plain)
    (hpre : ∀ x ∈ pre, x.cloakedKey ≠ cloak plain)
    (hpost : ∀ x ∈ post, x.cloakedKey ≠ cloak plain)
    (hrange : ∀ x ∈ pre ++ post, ∃ s, x.cloakedKey = cloak s) :
    ((strIncludes "429" err || strIncludes "quota" err ||
        strIncludes "limit" err) = true → penaltyMs err = 300000) ∧
    ((strIncludes "429" err || strIncludes "quota" err ||
        strIncludes "limit" err) = false →
      (strIncludes "503" err || strIncludes "overloaded" err) = true →
      penaltyMs err = 60000) ∧
    ((strIncludes "429" err || strIncludes "quota" err ||
        strIncludes "limit" err) = false →
      (strIncludes "503" err || strIncludes "overloaded" err) = false →
      penaltyMs err = 30000) ∧
    (reportFailure cloak p plain err t0).records =
      pre ++ bumpRecord r (penaltyMs err) t0 :: post ∧
    (∀ (q : VaultPool) (e : String) (t : Nat),
      reportFailure cloak q "server-side-managed" e t = q) ∧
    (∀ (now c : Nat), now < t0 + penaltyMs err →
      (getKey decloak ⟨(reportFailure cloak p plain err t0).records, c⟩ now).1 ≠
        some plain) ∧
    (∀ now : Nat, t0 + penaltyMs err ≤ now →
      ∃ c : Nat,
        (getKey decloak ⟨(reportFailure cloak p plain err t0).records, c⟩ now).1 =
          some plain) := by
  have hrep : (reportFailure cloak p plain err t0).records =
      pre ++ bumpRecord r (penaltyMs err) t0 :: post := by
    rw [reportFailure, if_neg hplain]
    show bumpFirst (cloak plain) (penaltyMs err) t0 p.records = _
    rw [hsplit]
    exact bumpFirst_split _ _ _ pre r post hr hpre
  refine ⟨?_, ?_, ?_, hrep, ?_, ?_, ?_⟩
  · intro hc
    rw [penaltyMs, if_pos hc]
  · intro hc1 hc2
    rw [penaltyMs, if_neg (by simp [hc1]), if_pos hc2]
  · intro hc1 hc2
    rw [penaltyMs, if_neg (by simp [hc1]), if_neg (by simp [hc2])]
  · intro q e t
    rw [reportFailure, if_pos rfl]
  · -- strictly before the expiry the bumped credential is never returned
    intro now c hlt heq
    obtain ⟨rec, hmem, hact, hkey⟩ :=
      getKey_some_mem decloak ⟨(reportFailure cloak p plain err t0).records, c⟩ now plain heq
    rw [show (⟨(reportFailure cloak p plain err t0).records, c⟩ : VaultPool).records =
        (reportFailure cloak p plain err t0).records from rfl, hrep] at hmem
    rcases List.mem_append.mp hmem with hx | hx
    · obtain ⟨s, hs⟩ := hrange rec (List.mem_append_left _ hx)
      rw [healRecord_cloakedKey, hs, hcd] at hkey
      exact hpre rec hx (by rw [hs, ← hkey])
    · rcases List.mem_cons.mp hx with hb | hx2
      · have hcond : ¬((bumpRecord r (penaltyMs err) t0).status = .COOLDOWN ∧
            (bumpRecord r (penaltyMs err) t0).cooldownUntil ≤ now) := by
          rintro ⟨-, hle⟩
          simp only [bumpRecord] at hle
          omega
        rw [hb, healRecord, if_neg hcond] at hact
        simp [bumpRecord] at hact
      · obtain ⟨s, hs⟩ := hrange rec (List.mem_append_right _ hx2)
        rw [healRecord_cloakedKey, hs, hcd] at hkey
        exact hpost rec hx2 (by rw [hs, ← hkey])
  · -- at or after the expiry, some cursor returns the healed credential
    intro now hge
    have hbmem : bumpRecord r (penaltyMs err) t0 ∈ (reportFailure cloak p plain err t0).records := by
      rw [hrep]
      exact List.mem_append_right _ (List.mem_cons_self _ _)
    have hstat : (healRecord now (bumpRecord r (penaltyMs err) t0)).status = .ACTIVE := by
      rw [healRecord, if_pos ⟨rfl, by simp only [bumpRecord]; omega⟩]
    have hA : healRecord now (bumpRecord r (penaltyMs err) t0) ∈
        ((reportFailure cloak p plain err t0).records.map (healRecord now)).filter
          (fun k => k.status = .ACTIVE) := by
      refine List.mem_filter.mpr ⟨List.mem_map_of_mem _ hbmem, by simp [hstat]⟩
    obtain ⟨n, hn, hgeteq⟩ := List.mem_iff_getElem.mp hA
    refine ⟨n, ?_⟩
    have hnonempty : ¬((reportFailure cloak p plain err t0).records.isEmpty = true) := by
      rw [hrep]
      simp
    have hlen0 : ¬((((reportFailure cloak p plain err t0).records.map (healRecord now)).filter
        (fun k => k.status = .ACTIVE)).length = 0) := by omega
    simp only [getKey]
    rw [if_neg hnonempty, if_neg hlen0]
    simp only [Nat.mod_eq_of_lt hn, List.getD_eq_getElem _ _ hn, hgeteq,
      healRecord_cloakedKey, bumpRecord_cloakedKey, hr, hcd]

end Hydra

namespace Hydra

/-- Witness vault for C9: two active credentials. -/
def wRec1 : KeyRecord := ⟨"k1", .ACTIVE, 0, 0⟩

/-- Witness record for C9: the credential that will fail. -/
def wRec2 : KeyRecord := ⟨"k2", .ACTIVE, 0, 0⟩

/-- Witness pool for C9. -/
def wPool : VaultPool := ⟨[wRec1, wRec2], 0⟩

/-- Witness for C9 at a concrete two-credential pool with the identity
cloaking: a quota error grades to the 300 s cooldown, exactly the matching
record is bumped, an acquire at half the cooldown never returns the
credential, and an acquire at the expiry can. -/
theorem vault_cooldown_roundtrip_witness :
    penaltyMs "quota exceeded" = 300000 ∧
    (reportFailure (fun s => s) wPool "k2" "quota exceeded" 1000).records =
      [wRec1] ++ bumpRecord wRec2 (penaltyMs "quota exceeded") 1000 :: [] ∧
    (getKey (fun s => s)
        ⟨(reportFailure (fun s => s) wPool "k2" "quota exceeded" 1000).records, 0⟩
        150000).1 ≠ some "k2" ∧
    (getKey (fun s => s)
        ⟨(reportFailure (fun s => s) wPool "k2" "quota exceeded" 1000).records, 1⟩
        301000).1 = some "k2" := by
  have H := vault_cooldown_roundtrip (fun s => s) (fun s => s) (fun _ => rfl)
    wPool "k2" "quota exceeded" 1000 (by decide) [wRec1] [] wRec2 rfl rfl
    (by decide) (by simp) (by intro x hx; exact ⟨x.cloakedKey, rfl⟩)
  have hpen : penaltyMs "quota exceeded" = 300000 := H.1 (by decide)
  have hex := H.2.2.2.2.2.2 301000 (by omega)
  refine ⟨hpen, H.2.2.2.1, H.2.2.2.2.2.1 150000 0 (by omega), by decide⟩

end Hydra
